import Mathlib

/-!
Verification of the stock-metrics retrieval-and-cache path of the STOCKWIZ
backend (`src/index.js`).  The JavaScript values flowing through the path are
modelled by `JValue` (JSON-parseable values) and `JNum` (JS numbers, which may
be NaN or infinite after coercion).  `getStockMetrics` is embedded as a pure
function over an explicit cache, clock, model reply and random source.
-/

/-- A JS number as produced by `Number(...)` coercion: NaN, ±Infinity, or a
finite value (modelled as a rational; the claims do not hinge on binary
floating-point rounding). -/
inductive JNum where
  | nan
  | inf
  | ninf
  | val (q : ℚ)
deriving Repr, DecidableEq

/-- A JSON value as produced by `JSON.parse`: null, booleans, (finite) numbers,
strings, arrays and objects.  Object fields are kept in textual order;
`JSON.parse` keeps the last binding of a duplicated key, which `objGet`
reproduces by searching from the right. -/
inductive JValue where
  | jnull
  | jbool (b : Bool)
  | jnum (q : ℚ)
  | jstr (s : String)
  | jarr (elems : List JValue)
  | jobj (fields : List (String × JValue))
deriving Repr, Inhabited

/-- JS truthiness of a parsed JSON value: `null`, `false`, `0` and `""` are
falsy; every array and object is truthy. -/
def truthy : JValue → Bool
  | .jnull => false
  | .jbool b => b
  | .jnum q => q != 0
  | .jstr s => s != ""
  | .jarr _ => true
  | .jobj _ => true

/-- `typeof v === "object"` for a parsed JSON value (`typeof null` is
`"object"` in JS, and arrays are objects). -/
def typeofObject : JValue → Bool
  | .jnull => true
  | .jarr _ => true
  | .jobj _ => true
  | _ => false

/-- Property access `v.k` on a parsed value: defined on objects (last binding
of the key wins, as in `JSON.parse`), `undefined` (here `none`) otherwise. -/
def objGet (v : JValue) (k : String) : Option JValue :=
  match v with
  | .jobj fields => (fields.reverse.find? (fun p => p.1 == k)).map (fun p => p.2)
  | _ => none

/-- The value of `v.k` when it is present and truthy, `none` otherwise: the
shape of the `parsed.k ? ... : ...` and `parsed.k || ...` tests in
`getStockMetrics`. -/
def truthyField (v : JValue) (k : String) : Option JValue :=
  match objGet v k with
  | some x => if truthy x then some x else none
  | none => none

/-! ### JS string-to-number coercion (`Number(...)`) -/

/-- Whitespace as trimmed by JS `Number(string)` / `String.prototype.trim`
(the common ASCII part, plus NBSP). -/
def isJsWs (c : Char) : Bool :=
  c = ' ' || c = '\t' || c = '\n' || c = '\r' || c = Char.ofNat 12 ||
  c = Char.ofNat 11 || c = Char.ofNat 160

def isDigitCh (c : Char) : Bool := '0' ≤ c && c ≤ '9'

def digitVal (c : Char) : ℕ := c.toNat - '0'.toNat

/-- Split a leading run of decimal digits. -/
def takeDigits : List Char → List Char × List Char
  | [] => ([], [])
  | c :: cs =>
    if isDigitCh c then
      let (ds, rest) := takeDigits cs
      (c :: ds, rest)
    else ([], c :: cs)

def digitsToNat (ds : List Char) : ℕ :=
  ds.foldl (fun acc c => 10 * acc + digitVal c) 0

def hexVal (c : Char) : Option ℕ :=
  if isDigitCh c then some (digitVal c)
  else
    let n := c.toNat
    if 97 ≤ n && n ≤ 102 then some (n - 87)
    else if 65 ≤ n && n ≤ 70 then some (n - 55)
    else none

def takeHexDigits : List Char → List Char × List Char
  | [] => ([], [])
  | c :: cs =>
    if (hexVal c).isSome then
      let (ds, rest) := takeHexDigits cs
      (c :: ds, rest)
    else ([], c :: cs)

def hexDigitsToNat (ds : List Char) : ℕ :=
  ds.foldl (fun acc c => 16 * acc + (hexVal c).getD 0) 0

/-- A full-string JS decimal numeric literal (`StrDecimalLiteral` without the
sign): `digits [. digits] [exp]`, `. digits [exp]`, exponent `e`/`E` with an
optional sign.  Returns the exact rational value. -/
def parseDecBody (cs : List Char) : Option ℚ :=
  let (intDs, rest1) := takeDigits cs
  let (fracDs, restAfterFrac) : List Char × List Char :=
    match rest1 with
    | '.' :: tl => takeDigits tl
    | _ => ([], rest1)
  if intDs.isEmpty && fracDs.isEmpty then none
  else
    let mantissa : ℚ :=
      (digitsToNat intDs : ℚ) + (digitsToNat fracDs : ℚ) / ((10 : ℚ) ^ fracDs.length)
    match restAfterFrac with
    | [] => some mantissa
    | e :: tl =>
      if e = 'e' || e = 'E' then
        let (sign, tl2) : ℚ × List Char :=
          match tl with
          | '+' :: tl2 => (1, tl2)
          | '-' :: tl2 => (-1, tl2)
          | _ => (1, tl)
        let (expDs, rest3) := takeDigits tl2
        if expDs.isEmpty || !rest3.isEmpty then none
        else
          let k : ℕ := digitsToNat expDs
          if sign = 1 then some (mantissa * (10 : ℚ) ^ k)
          else some (mantissa / (10 : ℚ) ^ k)
      else none

/-- JS `Number(string)`: trim whitespace; empty means `0`; otherwise a signed
decimal literal, `Infinity`, or an unsigned `0x`/`0o`/`0b` radix literal;
anything else is NaN. -/
def jsStringToNumber (s : String) : JNum :=
  let cs := ((s.toList.dropWhile isJsWs).reverse.dropWhile isJsWs).reverse
  match cs with
  | [] => .val 0
  | _ =>
    let (neg, body) : Bool × List Char :=
      match cs with
      | '-' :: tl => (true, tl)
      | '+' :: tl => (false, tl)
      | _ => (false, cs)
    if body = "Infinity".toList then (if neg then .ninf else .inf)
    else
      match cs with
      | '0' :: x :: tl =>
        if x = 'x' || x = 'X' then
          let (ds, rest) := takeHexDigits tl
          if ds.isEmpty || !rest.isEmpty then .nan else .val (hexDigitsToNat ds : ℚ)
        else if x = 'o' || x = 'O' then
          let ds := tl
          if ds.isEmpty || !ds.all (fun c => '0' ≤ c && c ≤ '7') then .nan
          else .val (ds.foldl (fun acc c => 8 * acc + digitVal c) 0 : ℚ)
        else if x = 'b' || x = 'B' then
          let ds := tl
          if ds.isEmpty || !ds.all (fun c => c = '0' || c = '1') then .nan
          else .val (ds.foldl (fun acc c => 2 * acc + digitVal c) 0 : ℚ)
        else
          match parseDecBody cs with
          | some q => .val q
          | none => .nan
      | _ =>
        match parseDecBody body with
        | some q => .val (if neg then -q else q)
        | none => .nan

/-- Least `k ≤ 40` with `d ∣ 10 ^ k`: the denominators reachable from JSON
number literals are all of this shape. -/
def dec10Exp (d : ℕ) : Option ℕ :=
  (List.range 41).find? (fun k => 10 ^ k % d = 0)

/-- Decimal rendering of a rational, matching JS number-to-string output on
the values reachable here (integers and terminating decimals; a
non-terminating rational falls back to a fraction spelling, which is never
numeric downstream). -/
def ratToDecString (q : ℚ) : String :=
  if q.den = 1 then toString q.num
  else
    match dec10Exp q.den with
    | some k =>
      let m : ℕ := q.num.natAbs * 10 ^ k / q.den
      let s0 := toString m
      let s := String.mk (List.replicate (k + 1 - s0.length) '0') ++ s0
      (if q.num < 0 then "-" else "") ++ s.dropRight k ++ "." ++ s.takeRight k
    | none => toString q.num ++ "/" ++ toString q.den

mutual

/-- JS `String(v)` for the values reachable from parsed JSON (used by
`Number(...)` on arrays via `Array.prototype.join`); `joinElems` is the join
with separator `","`, where a `null` element contributes the empty string. -/
def jsToStr : JValue → String
  | .jnull => "null"
  | .jbool b => if b then "true" else "false"
  | .jnum q => ratToDecString q
  | .jstr s => s
  | .jarr xs => joinElems xs
  | .jobj _ => "[object Object]"

def joinElems : List JValue → String
  | [] => ""
  | [.jnull] => ""
  | [x] => jsToStr x
  | .jnull :: xs => "," ++ joinElems xs
  | x :: xs => jsToStr x ++ "," ++ joinElems xs

end

/-- JS `Number(v)` on a parsed JSON value: `null ↦ 0`, booleans to `0`/`1`,
strings through the string-to-number grammar, arrays through
`ToPrimitive` = `join` then the string grammar, plain objects to NaN (their
primitive form `"[object Object]"` is never numeric). -/
def toNumber : JValue → JNum
  | .jnull => .val 0
  | .jbool b => .val (if b then 1 else 0)
  | .jnum q => .val q
  | .jstr s => jsStringToNumber s
  | .jarr xs => jsStringToNumber (joinElems xs)
  | .jobj _ => .nan

/-! ### `JSON.parse` -/

/-- The whitespace `JSON.parse` skips between tokens. -/
def isJsonWs (c : Char) : Bool :=
  c = ' ' || c = '\t' || c = '\n' || c = '\r'

def skipWs (cs : List Char) : List Char := cs.dropWhile isJsonWs

/-- Body of a JSON string literal, entered after the opening quote: returns
the decoded characters and the remainder after the closing quote.  Handles
the escapes `JSON.parse` accepts and rejects raw control characters. -/
def parseStrBody : List Char → Option (List Char × List Char)
  | [] => none
  | '"' :: cs => some ([], cs)
  | '\\' :: '"' :: cs => (parseStrBody cs).map (fun p => ('"' :: p.1, p.2))
  | '\\' :: '\\' :: cs => (parseStrBody cs).map (fun p => ('\\' :: p.1, p.2))
  | '\\' :: '/' :: cs => (parseStrBody cs).map (fun p => ('/' :: p.1, p.2))
  | '\\' :: 'b' :: cs => (parseStrBody cs).map (fun p => (Char.ofNat 8 :: p.1, p.2))
  | '\\' :: 'f' :: cs => (parseStrBody cs).map (fun p => (Char.ofNat 12 :: p.1, p.2))
  | '\\' :: 'n' :: cs => (parseStrBody cs).map (fun p => ('\n' :: p.1, p.2))
  | '\\' :: 'r' :: cs => (parseStrBody cs).map (fun p => ('\r' :: p.1, p.2))
  | '\\' :: 't' :: cs => (parseStrBody cs).map (fun p => ('\t' :: p.1, p.2))
  | '\\' :: 'u' :: a :: b :: c :: d :: cs =>
    match hexVal a, hexVal b, hexVal c, hexVal d with
    | some x, some y, some z, some w =>
      (parseStrBody cs).map (fun p => (Char.ofNat (4096 * x + 256 * y + 16 * z + w) :: p.1, p.2))
    | _, _, _, _ => none
  | '\\' :: _ => none
  | c :: cs =>
    if c.toNat < 32 then none
    else (parseStrBody cs).map (fun p => (c :: p.1, p.2))

/-- A JSON number token as a prefix of the input (strict JSON grammar: no
leading zeros, at least one digit in each part, optional fraction and
exponent).  Returns its exact rational value and the remainder. -/
def parseJsonNumber (cs : List Char) : Option (ℚ × List Char) :=
  let (neg, cs1) : Bool × List Char :=
    match cs with
    | '-' :: tl => (true, tl)
    | _ => (false, cs)
  let (intDs, rest1) := takeDigits cs1
  if intDs.isEmpty then none
  else if intDs.length > 1 && intDs.head? = some '0' then none
  else
    let dotted : Bool := match rest1 with | '.' :: _ => true | _ => false
    let (fracDs, rest2) : List Char × List Char :=
      match rest1 with
      | '.' :: tl => takeDigits tl
      | _ => ([], rest1)
    if dotted && fracDs.isEmpty then none
    else
      -- An integer literal is built by a single integer cast (the value agrees
      -- with the general mantissa formula; this form also reduces in the kernel).
      let mant : ℚ :=
        if fracDs.isEmpty then ((digitsToNat intDs : ℤ) : ℚ)
        else (digitsToNat intDs : ℚ) + (digitsToNat fracDs : ℚ) / (10 : ℚ) ^ fracDs.length
      let signedMant : ℚ := if neg then -mant else mant
      match rest2 with
      | e :: tl =>
        if e = 'e' || e = 'E' then
          let (eneg, tl2) : Bool × List Char :=
            match tl with
            | '+' :: t2 => (false, t2)
            | '-' :: t2 => (true, t2)
            | _ => (false, tl)
          let (expDs, rest4) := takeDigits tl2
          if expDs.isEmpty then none
          else
            let k := digitsToNat expDs
            some (if eneg then signedMant / (10 : ℚ) ^ k else signedMant * (10 : ℚ) ^ k, rest4)
        else some (signedMant, rest2)
      | [] => some (signedMant, [])

mutual

/-- Recursive-descent `JSON.parse`, fueled (the fuel passed by `parseJson`
always suffices).  `parseVal` parses one value after skipping whitespace;
`parseArrTail` and `parseObjTail` parse the continuations after an array
element or object pair; `parseMember` parses a key-value pair after the
key's opening quote. -/
def parseVal : ℕ → List Char → Option (JValue × List Char)
  | 0, _ => none
  | f + 1, cs =>
    match skipWs cs with
    | 'n' :: 'u' :: 'l' :: 'l' :: rest => some (.jnull, rest)
    | 't' :: 'r' :: 'u' :: 'e' :: rest => some (.jbool true, rest)
    | 'f' :: 'a' :: 'l' :: 's' :: 'e' :: rest => some (.jbool false, rest)
    | '"' :: rest => (parseStrBody rest).map (fun p => (.jstr (String.mk p.1), p.2))
    | '[' :: rest =>
      match skipWs rest with
      | ']' :: r2 => some (.jarr [], r2)
      | _ =>
        match parseVal f rest with
        | some (v, r2) =>
          match parseArrTail f r2 with
          | some (vs, r3) => some (.jarr (v :: vs), r3)
          | none => none
        | none => none
    | '{' :: rest =>
      match skipWs rest with
      | '}' :: r2 => some (.jobj [], r2)
      | '"' :: r2 =>
        match parseMember f r2 with
        | some (kv, r3) =>
          match parseObjTail f r3 with
          | some (kvs, r4) => some (.jobj (kv :: kvs), r4)
          | none => none
        | none => none
      | _ => none
    | c :: rest =>
      if c = '-' || isDigitCh c then
        (parseJsonNumber (c :: rest)).map (fun p => (.jnum p.1, p.2))
      else none
    | [] => none

def parseArrTail : ℕ → List Char → Option (List JValue × List Char)
  | 0, _ => none
  | f + 1, cs =>
    match skipWs cs with
    | ']' :: rest => some ([], rest)
    | ',' :: rest =>
      match parseVal f rest with
      | some (v, r2) =>
        match parseArrTail f r2 with
        | some (vs, r3) => some (v :: vs, r3)
        | none => none
      | none => none
    | _ => none

def parseMember : ℕ → List Char → Option ((String × JValue) × List Char)
  | 0, _ => none
  | f + 1, cs =>
    match parseStrBody cs with
    | some (keyCs, r1) =>
      match skipWs r1 with
      | ':' :: r2 =>
        match parseVal f r2 with
        | some (v, r3) => some ((String.mk keyCs, v), r3)
        | none => none
      | _ => none
    | none => none

def parseObjTail : ℕ → List Char → Option (List (String × JValue) × List Char)
  | 0, _ => none
  | f + 1, cs =>
    match skipWs cs with
    | '}' :: rest => some ([], rest)
    | ',' :: rest =>
      match skipWs rest with
      | '"' :: r2 =>
        match parseMember f r2 with
        | some (kv, r3) =>
          match parseObjTail f r3 with
          | some (kvs, r4) => some (kv :: kvs, r4)
          | none => none
        | none => none
      | _ => none
    | _ => none

end

/-- `JSON.parse(s)`: parse one value and require only whitespace after it;
`none` models a thrown `SyntaxError`. -/
def parseJson (s : String) : Option JValue :=
  match parseVal (2 * s.length + 4) s.toList with
  | some (v, rest) => if (skipWs rest).isEmpty then some v else none
  | none => none

/-! ### The retrieval pipeline of `getStockMetrics` (src/index.js:147-217) -/

/-- The greedy regex match `text.match(/\x7b[\s\S]*\x7d/)`: the span from the
first opening brace to the last closing brace, when the latter comes after
the former; `none` when the text holds no such span. -/
def braceSpan (s : String) : Option String :=
  let cs := s.toList
  match cs.findIdx? (fun c => c = '{'), cs.reverse.findIdx? (fun c => c = '}') with
  | some i, some k =>
    let j := cs.length - 1 - k
    if i < j then some (String.mk ((cs.drop i).take (j - i + 1))) else none
  | _, _ => none

/-- Lines 171-183: parse the brace span when one exists, otherwise parse the
whole text directly.  `none` models the `catch (parseErr)` path. -/
def attemptedParse (text : String) : Option JValue :=
  match braceSpan text with
  | some span => parseJson span
  | none => parseJson text

/-- Line 167: `!text || text.trim().length === 0`. -/
def isBlank (s : String) : Bool := s.toList.all isJsWs

/-- The normalized record built at lines 197-208.  `stockName` and `symbol`
keep whatever (possibly non-string) truthy value the parsed reply supplied;
the eight numeric fields are JS numbers. -/
structure StockMetrics where
  stockName : JValue
  symbol : JValue
  currentPrice : JNum
  dayHigh : JNum
  dayLow : JNum
  peRatio : JNum
  roe : JNum
  debtToEquity : JNum
  profitMargins : JNum
  revenueGrowth : JNum
deriving Repr

/-- One numeric field of the normalization:
`parsed.k ? Number(parsed.k) : Math.random() * scale + lo`, with `r` the
value drawn by `Math.random()`. -/
def numField (parsed : JValue) (k : String) (r lo scale : ℚ) : JNum :=
  match truthyField parsed k with
  | some v => toNumber v
  | none => .val (r * scale + lo)

/-- Lines 197-208: the `normalized` object.  `r i` is the value of the
`i`-th `Math.random()` call, in source order. -/
def normalized (stockSymbol : String) (parsed : JValue) (r : Fin 8 → ℚ) : StockMetrics where
  stockName :=
    (truthyField parsed "stockName").getD ((truthyField parsed "name").getD (.jstr stockSymbol))
  symbol := (truthyField parsed "symbol").getD (.jstr stockSymbol)
  currentPrice := numField parsed "currentPrice" (r 0) 50 100
  dayHigh := numField parsed "dayHigh" (r 1) 60 100
  dayLow := numField parsed "dayLow" (r 2) 40 100
  peRatio := numField parsed "peRatio" (r 3) 10 30
  roe := numField parsed "roe" (r 4) (1/10) (1/2)
  debtToEquity := numField parsed "debtToEquity" (r 5) (1/5) 1
  profitMargins := numField parsed "profitMargins" (r 6) (1/10) (1/2)
  revenueGrowth := numField parsed "revenueGrowth" (r 7) (1/20) (3/10)

/-- The distinct `throw` sites inside the `try` block of `getStockMetrics`
(all are rewrapped into one caller-facing message by the `catch`). -/
inductive FetchError where
  | apiFailure
  | emptyResponse
  | invalidJson
  | notAnObject
deriving Repr, DecidableEq

/-- Lines 154-208, the body of the `try` block after a cache miss: `reply` is
the model's text (`none` when `generateContent` itself rejected), `r` the
random source for the placeholder draws. -/
def fetchMetrics (stockSymbol : String) (reply : Option String) (r : Fin 8 → ℚ) :
    Except FetchError StockMetrics :=
  match reply with
  | none => .error .apiFailure
  | some text =>
    if isBlank text then .error .emptyResponse
    else
      match attemptedParse text with
      | none => .error .invalidJson
      | some parsed =>
        if truthy parsed && typeofObject parsed then .ok (normalized stockSymbol parsed r)
        else .error .notAnObject

/-- Line 215: the single caller-facing error message. -/
def retrievalErrorMsg (stockSymbol : String) : String :=
  "Failed to retrieve real-time data for " ++ stockSymbol ++
    ". Please ensure the symbol is valid and try again."

/-- One entry of `stockCache`: `{ data, timestamp }` (line 211). -/
structure CacheEntry where
  data : StockMetrics
  timestamp : ℤ
deriving Repr

/-- The process-wide `stockCache` Map, as an association list with unique
keys in insertion order. -/
abbrev Cache : Type := List (String × CacheEntry)

/-- Line 145: `5 * 60 * 1000` milliseconds. -/
def CACHE_TTL : ℤ := 5 * 60 * 1000

/-- `stockCache.get(k)`. -/
def cacheGet (c : Cache) (k : String) : Option CacheEntry :=
  (c.find? (fun p => p.1 == k)).map (fun p => p.2)

/-- `stockCache.set(k, e)`: overwrite the existing binding or append. -/
def cacheSet (c : Cache) (k : String) (e : CacheEntry) : Cache :=
  match c with
  | [] => [(k, e)]
  | (k0, e0) :: rest => if k0 == k then (k, e) :: rest else (k0, e0) :: cacheSet rest k e

/-- Line 150: `cached && Date.now() - cached.timestamp < CACHE_TTL`. -/
def freshHit (c : Cache) (k : String) (now : ℤ) : Bool :=
  match cacheGet c k with
  | some e => decide (now - e.timestamp < CACHE_TTL)
  | none => false

/-- What one call of `getStockMetrics` produces: the settled promise, the
cache it leaves behind, and whether `model.generateContent` was invoked. -/
structure GmResult where
  result : Except String StockMetrics
  cache : Cache
  modelCalled : Bool
deriving Repr

/-- The miss path of `getStockMetrics`: run the `try` block; on success store
`{data, timestamp: now}` (line 211), on any inner failure leave the cache
alone and reject with the wrapped message (line 215). -/
def fetchAndStore (stockSymbol : String) (cache : Cache) (now : ℤ) (reply : Option String)
    (r : Fin 8 → ℚ) : GmResult :=
  match fetchMetrics stockSymbol reply r with
  | .ok m => ⟨.ok m, cacheSet cache stockSymbol ⟨m, now⟩, true⟩
  | .error _ => ⟨.error (retrievalErrorMsg stockSymbol), cache, true⟩

/-- `getStockMetrics` (lines 147-217) as a function of the explicit state:
cache, clock, model reply and random source. -/
def getStockMetrics (stockSymbol : String) (cache : Cache) (now : ℤ) (reply : Option String)
    (r : Fin 8 → ℚ) : GmResult :=
  match cacheGet cache stockSymbol with
  | some cached =>
    if now - cached.timestamp < CACHE_TTL then ⟨.ok cached.data, cache, false⟩
    else fetchAndStore stockSymbol cache now reply r
  | none => fetchAndStore stockSymbol cache now reply r

/-- JS `String.prototype.toUpperCase` on the ticker strings that reach the
routes (character-wise upper-casing). -/
def jsToUpperCase (s : String) : String := String.mk (s.toList.map Char.toUpper)

/-- The retrieval performed by `GET /stock/:symbol` (lines 221-230): the
route uppercases the path parameter before calling `getStockMetrics`. -/
def stockRoute (rawSymbol : String) (cache : Cache) (now : ℤ) (reply : Option String)
    (r : Fin 8 → ℚ) : GmResult :=
  getStockMetrics (jsToUpperCase rawSymbol) cache now reply r

/-- The retrieval performed by `GET /analyze/:symbol` (lines 233-236): it
uppercases the path parameter the same way before calling `getStockMetrics`. -/
def analyzeRoute (rawSymbol : String) (cache : Cache) (now : ℤ) (reply : Option String)
    (r : Fin 8 → ℚ) : GmResult :=
  getStockMetrics (jsToUpperCase rawSymbol) cache now reply r

/-! ### Statement-level vocabulary -/

/-- "Is an object" in the sense of the spec's parse validation: a JSON object
or array (JS arrays are objects; `null`, though `typeof null` is `"object"`,
is rejected by the code's `!parsed` guard). -/
def isJsObject : JValue → Bool
  | .jobj _ => true
  | .jarr _ => true
  | _ => false

/-- "A concrete number or string", the field typing §3 of the spec asserts. -/
def isNumOrStr : JValue → Bool
  | .jnum _ => true
  | .jstr _ => true
  | _ => false

/-- Modelled from the spec wording of claim C2 ("the first top-level
`\x7b...\x7d` span from the reply"): scan to the first opening brace and take
characters until the braces balance. -/
def scanBalanced : List Char → ℕ → List Char → Option (List Char)
  | [], _, _ => none
  | c :: cs, depth, acc =>
    if c = '{' then scanBalanced cs (depth + 1) (c :: acc)
    else if c = '}' then
      if depth = 1 then some (c :: acc).reverse
      else if depth = 0 then none
      else scanBalanced cs (depth - 1) (c :: acc)
    else scanBalanced cs depth (c :: acc)

/-- Modelled from the spec wording of claim C2: the first top-level brace
span of the text. -/
def firstTopLevelSpan (s : String) : Option String :=
  (scanBalanced (s.toList.dropWhile (fun c => c ≠ '{')) 0 []).map String.mk

/-- Claim C5's per-field property: a present-and-truthy parsed field is
coerced with `Number(...)`; otherwise the field is the placeholder
`r * scale + lo`, which lies in the documented closed range
`[lo, lo + scale]`. -/
def fieldOk (parsed : JValue) (k : String) (x : JNum) (ri lo scale : ℚ) : Prop :=
  match truthyField parsed k with
  | some v => x = toNumber v
  | none => x = .val (ri * scale + lo) ∧ lo ≤ ri * scale + lo ∧ ri * scale + lo ≤ lo + scale

/-- Claim C6's per-field property: a parsed value of exactly `0` is replaced
by the placeholder, and the returned field is not `0`. -/
def zeroReplaced (parsed : JValue) (k : String) (x : JNum) (ri lo scale : ℚ) : Prop :=
  objGet parsed k = some (.jnum 0) → x = .val (ri * scale + lo) ∧ x ≠ .val 0

/-! ### Shared concrete data for witnesses and counterexamples -/

/-- A degenerate random source (every `Math.random()` draw is `0`). -/
def sampleR : Fin 8 → ℚ := fun _ => 0

/-- The draws all equal to `1/2`, a value inside `[0, 1)`. -/
def halfR : Fin 8 → ℚ := fun _ => 1 / 2

/-- A reply carrying only a `stockName`. -/
def nameReply : String := "\x7b\"stockName\": \"Acme\"\x7d"

/-- The parse of `nameReply`. -/
def nameParsed : JValue := .jobj [("stockName", .jstr "Acme")]

/-- The record a successful fetch of `nameReply` stores for `"AAPL"` with
all placeholder draws at `0`. -/
def mAAPL : StockMetrics := normalized "AAPL" nameParsed sampleR

/-- A cache holding one entry for `"AAPL"`, stored at time `0`. -/
def cAAPL : Cache := [("AAPL", ⟨mAAPL, 0⟩)]

/-- The reply holding two complete JSON objects, on which the greedy brace
regex grabs a span that is not valid JSON. -/
def twoObjReply : String := "\x7b\"a\": 1\x7d \x7b\"b\": 2\x7d"

/-- A reply whose `roe` field is exactly `0`. -/
def zeroReply : String := "\x7b\"roe\": 0\x7d"

/-- The parse of `zeroReply` (bound to the parser's own output). -/
def zeroParsed : JValue := (attemptedParse zeroReply).getD .jnull

/-- A reply whose `stockName` is an array, not a string. -/
def badNameReply : String := "\x7b\"stockName\": [\"Acme\"]\x7d"

/-- The parse of `badNameReply`. -/
def badNameParsed : JValue := .jobj [("stockName", .jarr [.jstr "Acme"])]

/-- A reply whose `currentPrice` is the non-numeric string `"N/A"`. -/
def nanReply : String := "\x7b\"currentPrice\": \"N/A\"\x7d"

/-- The parse of `nanReply`. -/
def nanParsed : JValue := .jobj [("currentPrice", .jstr "N/A")]

/-! ### Helper lemmas -/

theorem cacheGet_cacheSet_self (c : Cache) (k : String) (e : CacheEntry) :
    cacheGet (cacheSet c k e) k = some e := by
  induction c with
  | nil => simp [cacheSet, cacheGet, List.find?]
  | cons hd tl ih =>
    obtain ⟨k0, e0⟩ := hd
    by_cases h : k0 == k
    · simp [cacheSet, cacheGet, h, List.find?]
    · simp only [cacheSet, h, if_false, Bool.false_eq_true]
      simpa [cacheGet, List.find?, h] using ih

theorem getStockMetrics_miss (sym : String) (c : Cache) (now : ℤ) (reply : Option String)
    (r : Fin 8 → ℚ) (h : freshHit c sym now = false) :
    getStockMetrics sym c now reply r = fetchAndStore sym c now reply r := by
  unfold getStockMetrics
  unfold freshHit at h
  cases hc : cacheGet c sym with
  | none => rfl
  | some e =>
    rw [hc] at h
    simp only [decide_eq_false_iff_not] at h
    simp [h]

theorem getStockMetrics_hit (sym : String) (c : Cache) (now : ℤ) (reply : Option String)
    (r : Fin 8 → ℚ) (e : CacheEntry) (hc : cacheGet c sym = some e)
    (h : now - e.timestamp < CACHE_TTL) :
    getStockMetrics sym c now reply r = ⟨.ok e.data, c, false⟩ := by
  unfold getStockMetrics
  rw [hc]
  simp [h]

theorem truthy_ne_jnull (v : JValue) (h : truthy v = true) : v ≠ .jnull := by
  intro hv
  subst hv
  simp [truthy] at h

theorem placeholder_bounds (ri lo scale : ℚ) (h0 : 0 ≤ ri) (h1 : ri < 1) (hs : 0 < scale) :
    lo ≤ ri * scale + lo ∧ ri * scale + lo ≤ lo + scale := by
  constructor <;> nlinarith

theorem freshHit_true_iff (c : Cache) (k : String) (now : ℤ) :
    freshHit c k now = true ↔ ∃ e, cacheGet c k = some e ∧ now - e.timestamp < CACHE_TTL := by
  unfold freshHit
  cases hc : cacheGet c k with
  | none => simp
  | some e => simp

/-! ### The claims -/

/-- C1: a second `retrieve(S)` within 5 minutes of a successful first call
that stored an entry returns the identical record, leaves the cache as it
was, and performs no outbound model call (whatever the model would have
replied the second time). -/
theorem getStockMetrics_cache_hit_within_window (sym : String) (c c1 : Cache) (t1 t2 : ℤ)
    (reply reply2 : Option String) (r r2 : Fin 8 → ℚ) (m : StockMetrics)
    (h1 : getStockMetrics sym c t1 reply r = ⟨.ok m, c1, true⟩)
    (h2 : t2 - t1 < CACHE_TTL) :
    getStockMetrics sym c1 t2 reply2 r2 = ⟨.ok m, c1, false⟩ := by
  have h1g : fetchAndStore sym c t1 reply r = ⟨.ok m, c1, true⟩ := by
    by_cases hfh : freshHit c sym t1 = true
    · obtain ⟨e, hc, ht⟩ := (freshHit_true_iff c sym t1).mp hfh
      rw [getStockMetrics_hit sym c t1 reply r e hc ht] at h1
      simp at h1
    · rw [getStockMetrics_miss sym c t1 reply r (by simpa using hfh)] at h1
      exact h1
  have hc1 : c1 = cacheSet c sym ⟨m, t1⟩ := by
    unfold fetchAndStore at h1g
    cases hf : fetchMetrics sym reply r with
    | ok m2 =>
      rw [hf] at h1g
      simp only [GmResult.mk.injEq, Except.ok.injEq] at h1g
      rw [← h1g.2.1, ← h1g.1]
    | error fe => rw [hf] at h1g; simp at h1g
  subst hc1
  exact getStockMetrics_hit sym _ t2 reply2 r2 ⟨m, t1⟩
    (cacheGet_cacheSet_self c sym ⟨m, t1⟩) (by simpa using h2)

/-- Witness for C1 at concrete inputs: the first call on an empty cache
stores the fetched record; a call 1 ms later returns it unchanged with no
model call. -/
theorem getStockMetrics_cache_hit_within_window_witness :
    getStockMetrics "AAPL" [] 0 (some nameReply) sampleR = ⟨.ok mAAPL, cAAPL, true⟩ ∧
    (1 : ℤ) - 0 < CACHE_TTL ∧
    getStockMetrics "AAPL" cAAPL 1 none halfR = ⟨.ok mAAPL, cAAPL, false⟩ :=
  ⟨by rfl, by decide,
    getStockMetrics_cache_hit_within_window "AAPL" [] cAAPL 0 1 (some nameReply) none
      sampleR halfR mAAPL (by rfl) (by decide)⟩

theorem fetchMetrics_some (sym text : String) (r : Fin 8 → ℚ) (hb : isBlank text = false) :
    fetchMetrics sym (some text) r =
      match attemptedParse text with
      | none => .error .invalidJson
      | some parsed =>
        if truthy parsed && typeofObject parsed then .ok (normalized sym parsed r)
        else .error .notAnObject := by
  unfold fetchMetrics
  dsimp only
  rw [hb]
  simp

/-- C2 counterexample: for the reply `twoObjReply` the first top-level brace
span is a complete object that parses fine, yet `getStockMetrics` rejects the
reply as invalid JSON — the code parses the greedy span from the first brace
to the last and never falls back when that span exists but does not parse. -/
theorem first_span_fallback_counterexample :
    isBlank twoObjReply = false ∧
    firstTopLevelSpan twoObjReply = some "\x7b\"a\": 1\x7d" ∧
    (∃ v, parseJson "\x7b\"a\": 1\x7d" = some v ∧ truthy v = true ∧ typeofObject v = true) ∧
    braceSpan twoObjReply = some twoObjReply ∧
    fetchMetrics "AAPL" (some twoObjReply) sampleR = .error .invalidJson :=
  ⟨by rfl, by rfl,
    ⟨(parseJson "\x7b\"a\": 1\x7d").getD .jnull, by rfl, by rfl, by rfl⟩,
    by rfl, by rfl⟩

/-- C2 (amended): `getStockMetrics` extracts the greedy span from the first
opening brace to the last closing brace of the reply and parses that; only
when no such span exists does it fall back to parsing the entire reply; a
span that exists but fails to parse is fatal with no fallback attempt. -/
theorem extraction_greedy_no_fallback (sym text : String) (r : Fin 8 → ℚ)
    (hb : isBlank text = false) :
    (∀ span v, braceSpan text = some span → parseJson span = some v →
      fetchMetrics sym (some text) r =
        if truthy v && typeofObject v then .ok (normalized sym v r)
        else .error .notAnObject) ∧
    (∀ span, braceSpan text = some span → parseJson span = none →
      fetchMetrics sym (some text) r = .error .invalidJson) ∧
    (∀ v, braceSpan text = none → parseJson text = some v →
      fetchMetrics sym (some text) r =
        if truthy v && typeofObject v then .ok (normalized sym v r)
        else .error .notAnObject) ∧
    (braceSpan text = none → parseJson text = none →
      fetchMetrics sym (some text) r = .error .invalidJson) := by
  refine ⟨fun span v hsp hpv => ?_, fun span hsp hpv => ?_, fun v hsp hpv => ?_,
    fun hsp hpv => ?_⟩ <;>
    rw [fetchMetrics_some sym text r hb] <;>
    simp only [attemptedParse, hsp, hpv]

/-- Witness for C2's amended theorem: a reply with no brace span and no JSON
content at all takes the fallback path and fails as invalid JSON. -/
theorem extraction_greedy_no_fallback_witness :
    isBlank "I cannot help with that." = false ∧
    braceSpan "I cannot help with that." = none ∧
    parseJson "I cannot help with that." = none ∧
    fetchMetrics "MSFT" (some "I cannot help with that.") sampleR = .error .invalidJson :=
  ⟨by rfl, by rfl, by rfl,
    (extraction_greedy_no_fallback "MSFT" "I cannot help with that." sampleR
      (by rfl)).2.2.2 (by rfl) (by rfl)⟩

theorem not_truthy_object_iff (p : JValue) :
    (truthy p && typeofObject p) = false ↔ isJsObject p = false := by
  cases p <;> simp [truthy, typeofObject, isJsObject]

theorem fetchMetrics_error_iff (sym : String) (reply : Option String) (r : Fin 8 → ℚ) :
    (∃ fe, fetchMetrics sym reply r = .error fe) ↔
      reply = none ∨ ∃ text, reply = some text ∧
        (isBlank text = true ∨ attemptedParse text = none ∨
          ∃ p, attemptedParse text = some p ∧ isJsObject p = false) := by
  cases reply with
  | none => simp [fetchMetrics]
  | some text =>
    by_cases hb : isBlank text = true
    · simp [fetchMetrics, hb]
    · have hb2 : isBlank text = false := by simpa using hb
      rw [fetchMetrics_some sym text r hb2]
      cases hp : attemptedParse text with
      | none => simp [hb2, hp]
      | some p =>
        by_cases ho : (truthy p && typeofObject p) = true
        · have hno : isJsObject p = true := by
            cases hjo : isJsObject p with
            | true => rfl
            | false => rw [(not_truthy_object_iff p).mpr hjo] at ho; simp at ho
          simp [ho, hb2, hp, hno]
        · have ho2 : (truthy p && typeofObject p) = false := by simpa using ho
          have hjo : isJsObject p = false := (not_truthy_object_iff p).mp ho2
          simp [ho2, hb2, hp, hjo]

/-- C3: when the cache lookup does not hit a fresh entry, `retrieve` rejects
exactly when the model call itself failed, the reply is empty or
whitespace-only, the attempted JSON parse fails, or the parsed value is not
an object; the one surfaced message is the fixed wrapper, which names the
input symbol. -/
theorem retrievalError_iff_and_names_symbol (sym : String) (c : Cache) (now : ℤ)
    (reply : Option String) (r : Fin 8 → ℚ) (hmiss : freshHit c sym now = false) :
    ((∃ msg, (getStockMetrics sym c now reply r).result = .error msg) ↔
      reply = none ∨ ∃ text, reply = some text ∧
        (isBlank text = true ∨ attemptedParse text = none ∨
          ∃ p, attemptedParse text = some p ∧ isJsObject p = false)) ∧
    ∀ msg, (getStockMetrics sym c now reply r).result = .error msg →
      msg = retrievalErrorMsg sym ∧ ∃ a b, msg = a ++ sym ++ b := by
  rw [getStockMetrics_miss sym c now reply r hmiss]
  constructor
  · rw [← fetchMetrics_error_iff sym reply r]
    unfold fetchAndStore
    cases hf : fetchMetrics sym reply r with
    | ok m => simp
    | error fe => simp
  · intro msg hmsg
    unfold fetchAndStore at hmsg
    cases hf : fetchMetrics sym reply r with
    | ok m => rw [hf] at hmsg; simp at hmsg
    | error fe =>
      rw [hf] at hmsg
      have hmsg2 : retrievalErrorMsg sym = msg := by simpa using hmsg
      subst hmsg2
      exact ⟨rfl, "Failed to retrieve real-time data for ",
        ". Please ensure the symbol is valid and try again.", rfl⟩

/-- Witness for C3: on an empty cache and the reply
`"I cannot help with that."`, the call rejects, and its message is the
wrapper with the symbol embedded in it. -/
theorem retrievalError_iff_and_names_symbol_witness :
    freshHit [] "MSFT" 0 = false ∧
    retrievalErrorMsg "MSFT" = retrievalErrorMsg "MSFT" ∧
    ∃ a b, retrievalErrorMsg "MSFT" = a ++ "MSFT" ++ b := by
  have h := (retrievalError_iff_and_names_symbol "MSFT" [] 0
    (some "I cannot help with that.") sampleR rfl).2 (retrievalErrorMsg "MSFT") (by rfl)
  exact ⟨rfl, h.1, h.2⟩

/-- C4: whenever `retrieve` rejects, the cache is left exactly as it was
(no entry written or overwritten). -/
theorem error_leaves_cache_unchanged (sym : String) (c : Cache) (now : ℤ)
    (reply : Option String) (r : Fin 8 → ℚ) (msg : String)
    (h : (getStockMetrics sym c now reply r).result = .error msg) :
    (getStockMetrics sym c now reply r).cache = c := by
  by_cases hfh : freshHit c sym now = true
  · obtain ⟨e, hc, ht⟩ := (freshHit_true_iff c sym now).mp hfh
    rw [getStockMetrics_hit sym c now reply r e hc ht] at h
    simp at h
  · rw [getStockMetrics_miss sym c now reply r (by simpa using hfh)] at h ⊢
    unfold fetchAndStore at h ⊢
    cases hf : fetchMetrics sym reply r with
    | ok m => rw [hf] at h; simp at h
    | error fe => rfl

/-- Witness for C4: an unparseable reply rejects and leaves the empty cache
empty. -/
theorem error_leaves_cache_unchanged_witness :
    (getStockMetrics "AAPL" [] 0 (some "I cannot help with that.") sampleR).result =
      .error (retrievalErrorMsg "AAPL") ∧
    (getStockMetrics "AAPL" [] 0 (some "I cannot help with that.") sampleR).cache = [] :=
  ⟨by rfl, error_leaves_cache_unchanged "AAPL" [] 0 (some "I cannot help with that.") sampleR
    (retrievalErrorMsg "AAPL") (by rfl)⟩

theorem truthyField_truthy (p : JValue) (k : String) (v : JValue)
    (h : truthyField p k = some v) : truthy v = true := by
  unfold truthyField at h
  cases ho : objGet p k with
  | none => rw [ho] at h; simp at h
  | some x =>
    rw [ho] at h
    dsimp only at h
    by_cases ht : truthy x = true
    · rw [if_pos ht] at h
      simp only [Option.some.injEq] at h
      rw [← h]
      exact ht
    · rw [if_neg ht] at h; simp at h

theorem fetchMetrics_ok_normalized (sym text : String) (r : Fin 8 → ℚ) (parsed : JValue)
    (m : StockMetrics) (hp : attemptedParse text = some parsed)
    (hm : fetchMetrics sym (some text) r = .ok m) :
    m = normalized sym parsed r ∧ isBlank text = false ∧
    (truthy parsed && typeofObject parsed) = true := by
  by_cases hb : isBlank text = true
  · exfalso
    unfold fetchMetrics at hm
    dsimp only at hm
    rw [hb] at hm
    simp at hm
  · have hb2 : isBlank text = false := by simpa using hb
    rw [fetchMetrics_some sym text r hb2] at hm
    simp only [hp] at hm
    by_cases ho : (truthy parsed && typeofObject parsed) = true
    · rw [if_pos ho] at hm
      simp only [Except.ok.injEq] at hm
      exact ⟨hm.symm, hb2, ho⟩
    · rw [if_neg ho] at hm; simp at hm

/-- C5: for a successfully parsed reply, each numeric field of the returned
record is `Number(...)` of the parsed field when that field is present and
truthy, and otherwise is the random placeholder `r * scale + lo`, which lies
in the documented field-specific range (currentPrice in `[50,150]`, dayHigh
in `[60,160]`, dayLow in `[40,140]`, peRatio in `[10,40]`, roe in
`[0.1,0.6]`, debtToEquity in `[0.2,1.2]`, profitMargins in `[0.1,0.6]`,
revenueGrowth in `[0.05,0.35]`) whenever the draw lies in `[0,1)`. -/
theorem numeric_fields_coerce_or_placeholder (sym text : String) (parsed : JValue)
    (r : Fin 8 → ℚ) (m : StockMetrics)
    (hr : ∀ i, 0 ≤ r i ∧ r i < 1)
    (hp : attemptedParse text = some parsed)
    (hm : fetchMetrics sym (some text) r = .ok m) :
    fieldOk parsed "currentPrice" m.currentPrice (r 0) 50 100 ∧
    fieldOk parsed "dayHigh" m.dayHigh (r 1) 60 100 ∧
    fieldOk parsed "dayLow" m.dayLow (r 2) 40 100 ∧
    fieldOk parsed "peRatio" m.peRatio (r 3) 10 30 ∧
    fieldOk parsed "roe" m.roe (r 4) (1 / 10) (1 / 2) ∧
    fieldOk parsed "debtToEquity" m.debtToEquity (r 5) (1 / 5) 1 ∧
    fieldOk parsed "profitMargins" m.profitMargins (r 6) (1 / 10) (1 / 2) ∧
    fieldOk parsed "revenueGrowth" m.revenueGrowth (r 7) (1 / 20) (3 / 10) := by
  obtain ⟨hmn, -, -⟩ := fetchMetrics_ok_normalized sym text r parsed m hp hm
  subst hmn
  have key : ∀ (k : String) (i : Fin 8) (lo scale : ℚ), 0 < scale →
      fieldOk parsed k (numField parsed k (r i) lo scale) (r i) lo scale := by
    intro k i lo scale hs
    unfold fieldOk numField
    cases htf : truthyField parsed k with
    | some v => simp
    | none =>
      refine ⟨rfl, ?_, ?_⟩ <;>
        [exact (placeholder_bounds (r i) lo scale (hr i).1 (hr i).2 hs).1;
         exact (placeholder_bounds (r i) lo scale (hr i).1 (hr i).2 hs).2]
  exact ⟨key "currentPrice" 0 50 100 (by norm_num), key "dayHigh" 1 60 100 (by norm_num),
    key "dayLow" 2 40 100 (by norm_num), key "peRatio" 3 10 30 (by norm_num),
    key "roe" 4 (1 / 10) (1 / 2) (by norm_num), key "debtToEquity" 5 (1 / 5) 1 (by norm_num),
    key "profitMargins" 6 (1 / 10) (1 / 2) (by norm_num),
    key "revenueGrowth" 7 (1 / 20) (3 / 10) (by norm_num)⟩

/-- Witness for C5 at `nameReply` with all draws `0`. -/
theorem numeric_fields_coerce_or_placeholder_witness :
    (∀ i : Fin 8, 0 ≤ sampleR i ∧ sampleR i < 1) ∧
    attemptedParse nameReply = some nameParsed ∧
    fetchMetrics "AAPL" (some nameReply) sampleR = .ok mAAPL ∧
    (fieldOk nameParsed "currentPrice" mAAPL.currentPrice (sampleR 0) 50 100 ∧
      fieldOk nameParsed "dayHigh" mAAPL.dayHigh (sampleR 1) 60 100 ∧
      fieldOk nameParsed "dayLow" mAAPL.dayLow (sampleR 2) 40 100 ∧
      fieldOk nameParsed "peRatio" mAAPL.peRatio (sampleR 3) 10 30 ∧
      fieldOk nameParsed "roe" mAAPL.roe (sampleR 4) (1 / 10) (1 / 2) ∧
      fieldOk nameParsed "debtToEquity" mAAPL.debtToEquity (sampleR 5) (1 / 5) 1 ∧
      fieldOk nameParsed "profitMargins" mAAPL.profitMargins (sampleR 6) (1 / 10) (1 / 2) ∧
      fieldOk nameParsed "revenueGrowth" mAAPL.revenueGrowth (sampleR 7) (1 / 20) (3 / 10)) := by
  have h := numeric_fields_coerce_or_placeholder "AAPL" nameReply nameParsed sampleR mAAPL
    (fun i => ⟨le_rfl, zero_lt_one⟩) (by rfl) (by rfl)
  exact ⟨fun i => ⟨le_rfl, zero_lt_one⟩, by rfl, by rfl, h⟩

/-- C6: a parsed numeric field that is exactly `0` is treated as falsy and
replaced by the randomized placeholder, so the returned record never carries
`0` for that field (the placeholder is bounded away from `0`). -/
theorem zero_numeric_field_replaced (sym text : String) (parsed : JValue)
    (r : Fin 8 → ℚ) (m : StockMetrics)
    (hr : ∀ i, 0 ≤ r i ∧ r i < 1)
    (hp : attemptedParse text = some parsed)
    (hm : fetchMetrics sym (some text) r = .ok m) :
    zeroReplaced parsed "currentPrice" m.currentPrice (r 0) 50 100 ∧
    zeroReplaced parsed "dayHigh" m.dayHigh (r 1) 60 100 ∧
    zeroReplaced parsed "dayLow" m.dayLow (r 2) 40 100 ∧
    zeroReplaced parsed "peRatio" m.peRatio (r 3) 10 30 ∧
    zeroReplaced parsed "roe" m.roe (r 4) (1 / 10) (1 / 2) ∧
    zeroReplaced parsed "debtToEquity" m.debtToEquity (r 5) (1 / 5) 1 ∧
    zeroReplaced parsed "profitMargins" m.profitMargins (r 6) (1 / 10) (1 / 2) ∧
    zeroReplaced parsed "revenueGrowth" m.revenueGrowth (r 7) (1 / 20) (3 / 10) := by
  obtain ⟨hmn, -, -⟩ := fetchMetrics_ok_normalized sym text r parsed m hp hm
  subst hmn
  have key : ∀ (k : String) (i : Fin 8) (lo scale : ℚ), 0 < lo → 0 ≤ scale →
      zeroReplaced parsed k (numField parsed k (r i) lo scale) (r i) lo scale := by
    intro k i lo scale hlo hs hz
    have htf : truthyField parsed k = none := by
      unfold truthyField
      rw [hz]
      simp [truthy]
    simp only [numField, htf]
    refine ⟨by trivial, ?_⟩
    intro hEq
    have hv : r i * scale + lo = 0 := by simpa using hEq
    nlinarith [(hr i).1]
  exact ⟨key "currentPrice" 0 50 100 (by norm_num) (by norm_num),
    key "dayHigh" 1 60 100 (by norm_num) (by norm_num),
    key "dayLow" 2 40 100 (by norm_num) (by norm_num),
    key "peRatio" 3 10 30 (by norm_num) (by norm_num),
    key "roe" 4 (1 / 10) (1 / 2) (by norm_num) (by norm_num),
    key "debtToEquity" 5 (1 / 5) 1 (by norm_num) (by norm_num),
    key "profitMargins" 6 (1 / 10) (1 / 2) (by norm_num) (by norm_num),
    key "revenueGrowth" 7 (1 / 20) (3 / 10) (by norm_num) (by norm_num)⟩

/-- Witness for C6: a reply whose `roe` is exactly `0` retrieves
successfully, and the returned `roe` is the placeholder, not `0`. -/
theorem zero_numeric_field_replaced_witness :
    (∀ i : Fin 8, 0 ≤ sampleR i ∧ sampleR i < 1) ∧
    attemptedParse zeroReply = some zeroParsed ∧
    fetchMetrics "TCS" (some zeroReply) sampleR = .ok (normalized "TCS" zeroParsed sampleR) ∧
    objGet zeroParsed "roe" = some (.jnum 0) ∧
    (normalized "TCS" zeroParsed sampleR).roe = .val (sampleR 4 * (1 / 2) + 1 / 10) ∧
    (normalized "TCS" zeroParsed sampleR).roe ≠ .val 0 := by
  have h := zero_numeric_field_replaced "TCS" zeroReply zeroParsed sampleR
    (normalized "TCS" zeroParsed sampleR) (fun i => ⟨le_rfl, zero_lt_one⟩) (by rfl) (by rfl)
  have h5 := h.2.2.2.2.1 (by rfl)
  exact ⟨fun i => ⟨le_rfl, zero_lt_one⟩, by rfl, by rfl, by rfl, h5.1, h5.2⟩

theorem normalized_stockName (sym : String) (parsed : JValue) (r : Fin 8 → ℚ) :
    (normalized sym parsed r).stockName =
      (truthyField parsed "stockName").getD ((truthyField parsed "name").getD (.jstr sym)) :=
  rfl

theorem normalized_symbolField (sym : String) (parsed : JValue) (r : Fin 8 → ℚ) :
    (normalized sym parsed r).symbol = (truthyField parsed "symbol").getD (.jstr sym) :=
  rfl

/-- C7 counterexample: a successful retrieval whose returned `stockName` is
an array — neither a number nor a string — because the parsed reply supplied
a truthy non-string there. -/
theorem field_not_num_or_string_counterexample :
    attemptedParse badNameReply = some badNameParsed ∧
    fetchMetrics "X" (some badNameReply) sampleR = .ok (normalized "X" badNameParsed sampleR) ∧
    (normalized "X" badNameParsed sampleR).stockName = .jarr [.jstr "Acme"] ∧
    isNumOrStr (normalized "X" badNameParsed sampleR).stockName = false :=
  ⟨by rfl, by rfl, by rfl, by rfl⟩

/-- C7 (amended): every field of a successfully returned record is present
and never null: the eight numeric fields are JS numbers by construction, and
`stockName` / `symbol` are the first truthy parsed candidate — whatever JSON
type the reply put there, so not necessarily a number or string — falling
back to the input symbol string. -/
theorem fields_present_non_null (sym text : String) (parsed : JValue) (r : Fin 8 → ℚ)
    (m : StockMetrics) (hp : attemptedParse text = some parsed)
    (hm : fetchMetrics sym (some text) r = .ok m) :
    m.stockName ≠ .jnull ∧ m.symbol ≠ .jnull ∧
    ((∃ v, truthyField parsed "stockName" = some v ∧ m.stockName = v) ∨
      (truthyField parsed "stockName" = none ∧
        ∃ v, truthyField parsed "name" = some v ∧ m.stockName = v) ∨
      m.stockName = .jstr sym) ∧
    ((∃ v, truthyField parsed "symbol" = some v ∧ m.symbol = v) ∨ m.symbol = .jstr sym) := by
  obtain ⟨hmn, -, -⟩ := fetchMetrics_ok_normalized sym text r parsed m hp hm
  subst hmn
  rw [normalized_stockName, normalized_symbolField]
  refine ⟨?_, ?_, ?_, ?_⟩
  · cases h1 : truthyField parsed "stockName" with
    | some v =>
      simpa using truthy_ne_jnull v (truthyField_truthy parsed "stockName" v h1)
    | none =>
      cases h2 : truthyField parsed "name" with
      | some w =>
        simpa using truthy_ne_jnull w (truthyField_truthy parsed "name" w h2)
      | none => simp
  · cases h3 : truthyField parsed "symbol" with
    | some v =>
      simpa using truthy_ne_jnull v (truthyField_truthy parsed "symbol" v h3)
    | none => simp
  · cases h1 : truthyField parsed "stockName" with
    | some v => exact Or.inl ⟨v, rfl, by simp⟩
    | none =>
      cases h2 : truthyField parsed "name" with
      | some w => exact Or.inr (Or.inl ⟨rfl, w, rfl, by simp⟩)
      | none => exact Or.inr (Or.inr (by simp))
  · cases h3 : truthyField parsed "symbol" with
    | some v => exact Or.inl ⟨v, rfl, by simp⟩
    | none => exact Or.inr (by simp)

/-- Witness for C7's amended theorem at `nameReply`. -/
theorem fields_present_non_null_witness :
    attemptedParse nameReply = some nameParsed ∧
    fetchMetrics "AAPL" (some nameReply) sampleR = .ok mAAPL ∧
    mAAPL.stockName ≠ .jnull ∧ mAAPL.symbol ≠ .jnull := by
  have h := fields_present_non_null "AAPL" nameReply nameParsed sampleR mAAPL
    (by rfl) (by rfl)
  exact ⟨by rfl, by rfl, h.1, h.2.1⟩

/-- C8: a cache lookup hits only strictly within the 5-minute window
(`now - storedAt < CACHE_TTL`); a stale entry is treated as absent — the
model is called — while a failed retrieval leaves the stale entry in place
untouched, and a successful one overwrites it with the fresh record stored
at the current, strictly later, time. -/
theorem stale_lookup_and_refresh (sym : String) (c : Cache) (now : ℤ) (e : CacheEntry)
    (reply : Option String) (r : Fin 8 → ℚ) (m : StockMetrics)
    (he : cacheGet c sym = some e) :
    (freshHit c sym now = true ↔ now - e.timestamp < CACHE_TTL) ∧
    (CACHE_TTL ≤ now - e.timestamp →
      (getStockMetrics sym c now reply r).modelCalled = true ∧
      (∀ fe, fetchMetrics sym reply r = .error fe →
        (getStockMetrics sym c now reply r).cache = c ∧
        cacheGet (getStockMetrics sym c now reply r).cache sym = some e) ∧
      (fetchMetrics sym reply r = .ok m →
        getStockMetrics sym c now reply r = ⟨.ok m, cacheSet c sym ⟨m, now⟩, true⟩ ∧
        cacheGet (cacheSet c sym ⟨m, now⟩) sym = some ⟨m, now⟩ ∧
        e.timestamp < now)) := by
  have hiff : freshHit c sym now = true ↔ now - e.timestamp < CACHE_TTL := by
    unfold freshHit
    rw [he]
    simp
  refine ⟨hiff, fun hstale => ?_⟩
  have hnotlt : ¬ now - e.timestamp < CACHE_TTL := by linarith
  have hmiss : freshHit c sym now = false := by
    cases hfh : freshHit c sym now with
    | false => rfl
    | true => exact absurd (hiff.mp hfh) hnotlt
  rw [getStockMetrics_miss sym c now reply r hmiss]
  refine ⟨?_, ?_, ?_⟩
  · unfold fetchAndStore
    cases fetchMetrics sym reply r <;> rfl
  · intro fe hf
    unfold fetchAndStore
    rw [hf]
    exact ⟨rfl, he⟩
  · intro hf
    unfold fetchAndStore
    rw [hf]
    refine ⟨rfl, cacheGet_cacheSet_self c sym ⟨m, now⟩, ?_⟩
    have hpos : (0 : ℤ) < CACHE_TTL := by norm_num [CACHE_TTL]
    linarith

/-- Witness for C8: the `"AAPL"` entry stored at time `0` is stale at time
`CACHE_TTL` exactly (the window is strict), and a successful retrieval then
overwrites it with `storedAt = CACHE_TTL > 0`. -/
theorem stale_lookup_and_refresh_witness :
    cacheGet cAAPL "AAPL" = some ⟨mAAPL, 0⟩ ∧
    CACHE_TTL ≤ CACHE_TTL - (0 : ℤ) ∧
    fetchMetrics "AAPL" (some nameReply) sampleR = .ok mAAPL ∧
    getStockMetrics "AAPL" cAAPL CACHE_TTL (some nameReply) sampleR =
      ⟨.ok mAAPL, cacheSet cAAPL "AAPL" ⟨mAAPL, CACHE_TTL⟩, true⟩ ∧
    (0 : ℤ) < CACHE_TTL := by
  have h := ((stale_lookup_and_refresh "AAPL" cAAPL CACHE_TTL ⟨mAAPL, 0⟩ (some nameReply)
    sampleR mAAPL (by rfl)).2 (by decide)).2.2 (by rfl)
  exact ⟨by rfl, by decide, by rfl, h.1, h.2.2⟩

/-- C9: a numeric field that is present and truthy but not numerically
interpretable (for example the string `"N/A"`) does not fail retrieval and is
not replaced by a placeholder: the coerced NaN is kept in the returned
record. -/
theorem truthy_unparseable_gives_nan (sym text : String) (parsed : JValue) (r : Fin 8 → ℚ)
    (hb : isBlank text = false)
    (hp : attemptedParse text = some parsed)
    (ho : (truthy parsed && typeofObject parsed) = true) :
    ∃ m, fetchMetrics sym (some text) r = .ok m ∧
      (∀ v, truthyField parsed "currentPrice" = some v → toNumber v = .nan →
        m.currentPrice = .nan) ∧
      (∀ v, truthyField parsed "dayHigh" = some v → toNumber v = .nan → m.dayHigh = .nan) ∧
      (∀ v, truthyField parsed "dayLow" = some v → toNumber v = .nan → m.dayLow = .nan) ∧
      (∀ v, truthyField parsed "peRatio" = some v → toNumber v = .nan → m.peRatio = .nan) ∧
      (∀ v, truthyField parsed "roe" = some v → toNumber v = .nan → m.roe = .nan) ∧
      (∀ v, truthyField parsed "debtToEquity" = some v → toNumber v = .nan →
        m.debtToEquity = .nan) ∧
      (∀ v, truthyField parsed "profitMargins" = some v → toNumber v = .nan →
        m.profitMargins = .nan) ∧
      (∀ v, truthyField parsed "revenueGrowth" = some v → toNumber v = .nan →
        m.revenueGrowth = .nan) := by
  have key : ∀ (k : String) (i : Fin 8) (lo scale : ℚ) v, truthyField parsed k = some v →
      toNumber v = .nan → numField parsed k (r i) lo scale = .nan := by
    intro k i lo scale v h1 h2
    simp only [numField, h1]
    exact h2
  refine ⟨normalized sym parsed r, ?_,
    fun v hv hn => key "currentPrice" 0 50 100 v hv hn,
    fun v hv hn => key "dayHigh" 1 60 100 v hv hn,
    fun v hv hn => key "dayLow" 2 40 100 v hv hn,
    fun v hv hn => key "peRatio" 3 10 30 v hv hn,
    fun v hv hn => key "roe" 4 (1 / 10) (1 / 2) v hv hn,
    fun v hv hn => key "debtToEquity" 5 (1 / 5) 1 v hv hn,
    fun v hv hn => key "profitMargins" 6 (1 / 10) (1 / 2) v hv hn,
    fun v hv hn => key "revenueGrowth" 7 (1 / 20) (3 / 10) v hv hn⟩
  rw [fetchMetrics_some sym text r hb]
  simp only [hp]
  rw [if_pos ho]

/-- Witness for C9: the reply whose `currentPrice` is `"N/A"` retrieves
successfully and the returned `currentPrice` is NaN. -/
theorem truthy_unparseable_gives_nan_witness :
    isBlank nanReply = false ∧
    attemptedParse nanReply = some nanParsed ∧
    (truthy nanParsed && typeofObject nanParsed) = true ∧
    truthyField nanParsed "currentPrice" = some (.jstr "N/A") ∧
    toNumber (.jstr "N/A") = .nan ∧
    ∃ m, fetchMetrics "TCS" (some nanReply) sampleR = .ok m ∧ m.currentPrice = .nan := by
  obtain ⟨m, hm, k1, -, -, -, -, -, -, -⟩ := truthy_unparseable_gives_nan "TCS" nanReply
    nanParsed sampleR (by rfl) (by rfl) (by rfl)
  exact ⟨by rfl, by rfl, by rfl, by rfl, by rfl, m, hm, k1 (.jstr "N/A") (by rfl) (by rfl)⟩

/-- C10: `getStockMetrics` keys the cache by the exact string it is given —
`"aapl"` misses a cache that freshly holds `"AAPL"` — and both HTTP routes
uppercase the path parameter before invoking it, which is what makes the
public interface effectively uppercase-keyed. -/
theorem routes_uppercase_and_case_sensitive_cache :
    (∀ raw c now reply r, stockRoute raw c now reply r =
      getStockMetrics (jsToUpperCase raw) c now reply r) ∧
    (∀ raw c now reply r, analyzeRoute raw c now reply r =
      getStockMetrics (jsToUpperCase raw) c now reply r) ∧
    jsToUpperCase "aapl" = "AAPL" ∧
    (getStockMetrics "AAPL" cAAPL 0 none sampleR).modelCalled = false ∧
    (getStockMetrics "aapl" cAAPL 0 none sampleR).modelCalled = true ∧
    (stockRoute "aapl" cAAPL 0 none sampleR).modelCalled = false :=
  ⟨fun _ _ _ _ _ => rfl, fun _ _ _ _ _ => rfl, by decide, by rfl, by rfl, by rfl⟩

